import Mathlib

/-!
Verification of the kluster patch-test pipeline (`HSTB/kluster/modules/patch.py`).

The Python class `PatchTest` is embedded shallowly:

* a `Sounding` is a triple of rationals (easting `x`, northing `y`, depth `z`);
  the float arrays of the source are modelled over `ℚ`, with `Option ℚ` for
  array cells that may be NaN ("missing") in per-line grid layers;
* the instance fields mutated stage by stage (`points`, `grid`, `a_matrix`,
  `b_matrix`, `result`) become a `PatchState` record threaded through
  stage functions, and `print` calls append to a diagnostics list `out`;
* the external collaborators (the FQPR data source, the bathygrid engine,
  `np.linalg.lstsq`) are parameters of the pipeline functions;
* 2-D numpy arrays appear either as `List (List ℚ)` (matrices, meshgrid
  output) or as row-major flattened `List`s (grid layers), matching numpy's
  C-order flattening used by boolean-mask indexing.
-/

/-- A sounding: easting, northing, depth (positive down), as produced by the
data source `subset_variables_by_line(['x', 'y', 'z'], ...)`. -/
structure Sounding where
  x : ℚ
  y : ℚ
  z : ℚ
deriving Repr, DecidableEq

/-- Embeds the index bookkeeping of `_generate_rotated_points` (patch.py
lines 104-109): `curr_point_index` starts at 0; for each line the recorded
range is `[curr_point_index, curr_point_index + x.size)` and then
`curr_point_index = x.size` (the *current* line's count, not the cumulative
total — faithful to the source). -/
def mbIndexes : List (String × ℕ) → ℕ → List (String × ℕ × ℕ)
  | [], _ => []
  | (nm, n) :: rest, curr => (nm, curr, curr + n) :: mbIndexes rest n

/-- The keys of `PatchTest._default_parameters` (patch.py lines 35-37), in
source dict-literal order. The default *values* come from
`kluster_variables`, a module outside the analysed sources; no claim depends
on them, so the embedding tracks keys only. -/
def defaultParameterKeys : List String :=
  ["roll", "roll_unc", "pitch", "pitch_unc", "heading", "heading_unc",
   "x_unc", "y_unc", "h_scale_unc"]

/-- Embeds the list comprehension of `PatchTest.__init__` (patch.py line 41):
the recognized keys absent from the provided mapping, in recognized-key
order. -/
def missingKeys (provided : List String) : List String :=
  defaultParameterKeys.filter (fun k => !(provided.contains k))

/-- Embeds the `initial_parameters` handling of `PatchTest.__init__`
(patch.py lines 38-44), at the level of key sets: `none` selects the default
parameters; a provided mapping missing any recognized key raises `ValueError`
naming the missing keys (modelled as `Except.error`); otherwise the provided
mapping is kept. The returned value is the key list of
`self.initial_parameters`. -/
def patchInit (initialKeys : Option (List String)) :
    Except (List String) (List String) :=
  match initialKeys with
  | none => .ok defaultParameterKeys
  | some ks =>
      let m := missingKeys ks
      if m = [] then .ok ks else .error m

/-- Embeds `PatchTest.display_results` (patch.py lines 66-75) as the list of
printed lines: the constant header always prints; the line list and the six
parameter rows print only when both `fqpr` and `result` are set. `fqprLines`
is the line-name list read off `self.fqpr` (or `none` when `fqpr` is None);
`result` is the 6×2 result matrix, row-indexed as in
`self.result[0] .. self.result[5]`. -/
def displayResults (fqprLines : Option (List String))
    (result : Option (List (List ℚ))) : List String :=
  "Patch test results" ::
    match fqprLines, result with
    | some names, some res =>
        ["Lines: " ++ toString names,
         "roll: " ++ toString (res.getD 0 []),
         "pitch: " ++ toString (res.getD 1 []),
         "heading: " ++ toString (res.getD 2 []),
         "x_translation: " ++ toString (res.getD 3 []),
         "y_translation: " ++ toString (res.getD 4 []),
         "horizontal scale factor: " ++ toString (res.getD 5 [])]
    | _, _ => []

/-- Embeds `valid_index = np.logical_and(~np.isnan(lineone), ~np.isnan(linetwo))`
(patch.py line 170) on row-major flattened layers: a per-line layer cell is
`none` where the float array holds NaN. -/
def validMask (l1 l2 : List (Option ℚ)) : List Bool :=
  List.zipWith (fun a b => a.isSome && b.isSome) l1 l2

/-- Embeds numpy boolean-mask indexing `arr[mask]` on row-major flattened
arrays: the values of `v` at the positions where `mask` is true, in order. -/
def maskedVals {α : Type} : List Bool → List α → List α
  | true :: ms, w :: vs => w :: maskedVals ms vs
  | false :: ms, _ :: vs => maskedVals ms vs
  | _, _ => []

/-- Embeds `np.column_stack` of two 1-D arrays: the matrix, as a list of
rows, whose k-th row is `[c1[k], c2[k]]`. -/
def columnStack2 (c1 c2 : List ℚ) : List (List ℚ) :=
  List.zipWith (fun a b => [a, b]) c1 c2

/-- Embeds `np.column_stack` of six 1-D arrays: the matrix, as a list of
rows, whose k-th row is `[c1[k], ..., c6[k]]`. -/
def columnStack6 (c1 c2 c3 c4 c5 c6 : List ℚ) : List (List ℚ) :=
  List.zipWith List.cons c1 (List.zipWith List.cons c2 (List.zipWith List.cons c3
    (List.zipWith List.cons c4 (List.zipWith (fun a b => [a, b]) c5 c6))))

/-- Embeds the `a_matrix = np.column_stack([...])` assembly of
`_build_patch_test_values` (patch.py lines 186-191), applied to the masked
1-D arrays `dpth_valid`, `xslope_valid`, `yslope_valid`, `y_node_valid`. -/
def designMatrix (d xs ys ny : List ℚ) : List (List ℚ) :=
  columnStack6
    (List.zipWith (fun a b => a - b) (List.zipWith (fun a b => a * b) ys d) ny)
    (List.zipWith (fun a b => a * b) xs d)
    (List.zipWith (fun a b => a * b) xs ny)
    xs
    ys
    (List.zipWith (fun a b => a * b) ys ny)

/-- Embeds the masked-matrix assembly of `_build_patch_test_values`
(patch.py lines 170-192): compute the valid-overlap mask, restrict every
per-cell array to it, and return the design matrix (local `a_matrix`) and
the observation matrix (local `l_one_matrix`). `nodeY` is the row-major
flattened `y_node_locs` mesh. Per-line layer values are read through
`Option.getD 0`; cells where this default fires are NaN cells, which the
mask never selects. -/
def buildMatrices (dpth xslope yslope nodeY : List ℚ)
    (lineone linetwo : List (Option ℚ)) : List (List ℚ) × List (List ℚ) :=
  let mask := validMask lineone linetwo
  let dv := maskedVals mask dpth
  let nyv := maskedVals mask nodeY
  let xsv := maskedVals mask xslope
  let ysv := maskedVals mask yslope
  let l1v := maskedVals mask (lineone.map (fun o => o.getD 0))
  let l2v := maskedVals mask (linetwo.map (fun o => o.getD 0))
  (designMatrix dv xsv ysv nyv, columnStack2 l1v l2v)

/-- Embeds `np.arange(lo, hi, step)` over `ℚ`: the values `lo + i*step` for
`i < ⌈(hi - lo)/step⌉` (numpy's element count for a positive step, clamped
to zero when the interval is empty). -/
def arange (lo hi step : ℚ) : List ℚ :=
  (List.range (⌈(hi - lo) / step⌉).toNat).map (fun (i : ℕ) => lo + (i : ℚ) * step)

/-- Embeds the node-location mesh of `_build_patch_test_values` (patch.py
lines 172-176): `xval = np.arange(min_x, max_x, rez)`,
`yval = np.arange(min_y, max_y, rez)`, then
`x_node_locs, y_node_locs = np.meshgrid(xval + rez/2, yval + rez/2)` with
numpy's default 'xy' indexing: both outputs have one row per `yval` entry
and one column per `xval` entry. -/
def nodeMesh (minx miny maxx maxy res : ℚ) : List (List ℚ) × List (List ℚ) :=
  let xval := (arange minx maxx res).map (fun v => v + res / 2)
  let yval := (arange miny maxy res).map (fun w => w + res / 2)
  (yval.map (fun _ => xval), yval.map (fun w => xval.map (fun _ => w)))

/-- The `y_node_locs` mesh flattened in row-major (numpy C) order, the order
in which boolean-mask indexing reads it. -/
def nodeYFlat (minx miny maxx maxy res : ℚ) : List ℚ :=
  ((nodeMesh minx miny maxx maxy res).2).flatten

/-- The minimum of a list, with a default for the empty list: embeds
`arr.min()` on a numpy array (the source only evaluates it on non-empty
buffers, where the default is irrelevant). -/
def listMinD {α : Type} [LinearOrder α] (d : α) : List α → α
  | [] => d
  | a :: r => r.foldl min a

/-- A sounding over the reals, for the trigonometric rotation step. -/
structure SoundingR where
  x : ℝ
  y : ℝ
  z : ℝ

/-- Embeds the point collection and rotation of `_generate_rotated_points`
(patch.py lines 96-141), given the already concatenated point buffer:
`ang = azimuth - 90`; `cos_az = cos(deg2rad(ang))`, `sin_az = sin(deg2rad(ang))`;
if `finalx.any()` (truthiness: some x is nonzero) the pivot is
(min x, min y) over the whole buffer and every point is rotated about it,
z untouched; otherwise `self.points` stays None (modelled as `none`) and the
no-valid-points diagnostic is printed instead. -/
noncomputable def generateRotatedPoints (az : ℝ) (pts : List SoundingR) :
    Option (List SoundingR) :=
  open Classical in
  if ∃ p ∈ pts, p.x ≠ 0 then
    some (pts.map (fun p =>
      ⟨listMinD 0 (pts.map (fun q => q.x)) +
          Real.cos ((az - 90) * Real.pi / 180) *
            (p.x - listMinD 0 (pts.map (fun q => q.x))) -
          Real.sin ((az - 90) * Real.pi / 180) *
            (p.y - listMinD 0 (pts.map (fun q => q.y))),
       listMinD 0 (pts.map (fun q => q.y)) +
          Real.sin ((az - 90) * Real.pi / 180) *
            (p.x - listMinD 0 (pts.map (fun q => q.x))) +
          Real.cos ((az - 90) * Real.pi / 180) *
            (p.y - listMinD 0 (pts.map (fun q => q.y))),
       p.z⟩))
  else
    none

/-- The dot product of two equal-length 1-D arrays, as used by `np.dot`. -/
def dotProd (u v : List ℚ) : ℚ := (List.zipWith (fun a b => a * b) u v).sum

/-- Embeds `np.dot` of two 2-D arrays (matrices as lists of rows): entry
(i, j) is the dot product of row i of `m1` with column j of `m2`. -/
def matMul (m1 m2 : List (List ℚ)) : List (List ℚ) :=
  m1.map (fun row => m2.transpose.map (fun col => dotProd row col))

/-- The grid handed back by the bathygrid collaborator, as consumed by
`_build_patch_test_values`: extent metadata (`min_x`, `min_y`, `max_x`,
`max_y`), the single resolution (`self.grid.resolutions[0]`), and the five
layers returned by `get_layers_by_name(['depth', 'x_slope', 'y_slope',
line_one, line_two])`, each flattened in row-major order; per-line layer
cells are `none` where the float array holds NaN. -/
structure GridData where
  min_x : ℚ
  min_y : ℚ
  max_x : ℚ
  max_y : ℚ
  resolution : ℚ
  depth : List ℚ
  xslope : List ℚ
  yslope : List ℚ
  lineone : List (Option ℚ)
  linetwo : List (Option ℚ)

/-- The mutable fields of a `PatchTest` instance that the pipeline stages
write, plus the diagnostics printed so far (`out`). All `Option` fields are
`None` after `__init__`. -/
structure PatchState where
  points : Option (List Sounding)
  indexes : List (String × ℕ × ℕ)
  min_x : Option ℚ
  min_y : Option ℚ
  grid : Option GridData
  a_matrix : Option (List (List ℚ))
  b_matrix : Option (List (List ℚ))
  result : Option (List (List ℚ))
  out : List String

/-- The state right after `PatchTest.__init__` (patch.py lines 46-54):
every pipeline field is None and nothing has been printed. -/
def initState : PatchState :=
  ⟨none, [], none, none, none, none, none, none, []⟩

/-- The diagnostic printed by `_generate_rotated_points` when
`finalx.any()` is falsy (patch.py line 141). -/
def noValidPointsMsg (names : List String) : String :=
  "Found no valid points for " ++ toString names

/-- The diagnostic printed by `_build_patch_test_values` when the
valid-overlap mask has no true entry (patch.py line 203). -/
def noOverlapMsg (names : List String) : String :=
  "No valid overlap found for lines: " ++ toString names

/-- Embeds `_generate_rotated_points` (patch.py lines 96-141) as a pipeline
stage over `ℚ`, with `cos_az`/`sin_az` the values numpy computes once from
the azimuth (the trigonometric formula itself is verified separately over
`ℝ` in `generateRotatedPoints`). `lines` is the data source's output: per
line name, the non-rejected soundings. The concatenated buffer feeds the
`finalx.any()` truthiness guard; when it passes, the pivot is the
componentwise minimum and every point is rotated about it. Index ranges are
recorded per line either way, as in the source loop. -/
def rotateStage (cosAz sinAz : ℚ) (lines : List (String × List Sounding))
    (st : PatchState) : PatchState :=
  let allPts := (lines.map Prod.snd).flatten
  let idx := mbIndexes (lines.map (fun l => (l.1, l.2.length))) 0
  if allPts.any (fun p => decide (p.x ≠ 0)) then
    let minx := listMinD 0 (allPts.map (fun p => p.x))
    let miny := listMinD 0 (allPts.map (fun p => p.y))
    { st with
      points := some (allPts.map (fun p =>
        ⟨minx + cosAz * (p.x - minx) - sinAz * (p.y - miny),
         miny + sinAz * (p.x - minx) + cosAz * (p.y - miny),
         p.z⟩)),
      indexes := idx,
      min_x := some minx,
      min_y := some miny }
  else
    { st with
      indexes := idx,
      out := st.out ++ [noValidPointsMsg (lines.map Prod.fst)] }

/-- Embeds `_grid` (patch.py lines 143-156): guarded on
`self.points is not None and self.points.size > 0`; the bathygrid engine is
the external collaborator `gridFn`, fed the per-line slices of the point
buffer selected by the recorded index ranges. -/
def gridStage (gridFn : List (String × List Sounding) → GridData)
    (st : PatchState) : PatchState :=
  match st.points with
  | none => st
  | some pts =>
      if pts.length > 0 then
        { st with grid := some (gridFn (st.indexes.map
            (fun t => (t.1, (pts.drop t.2.1).take (t.2.2 - t.2.1))))) }
      else st

/-- Embeds `_build_patch_test_values` (patch.py lines 158-203): guarded on
`self.grid is not None`; when the valid-overlap mask has a true entry the
design and observation matrices are assembled from the masked layers and
`self.a_matrix = Aᵀ·A`, `self.b_matrix = Aᵀ·L` are stored; otherwise the
no-overlap diagnostic naming the lines is printed. -/
def buildStage (names : List String) (st : PatchState) : PatchState :=
  match st.grid with
  | none => st
  | some g =>
      let mask := validMask g.lineone g.linetwo
      if mask.any (fun b => b) then
        let ny := nodeYFlat g.min_x g.min_y g.max_x g.max_y g.resolution
        let am := (buildMatrices g.depth g.xslope g.yslope ny g.lineone g.linetwo).1
        let lm := (buildMatrices g.depth g.xslope g.yslope ny g.lineone g.linetwo).2
        { st with
          a_matrix := some (matMul am.transpose am),
          b_matrix := some (matMul am.transpose lm) }
      else
        { st with out := st.out ++ [noOverlapMsg names] }

/-- Embeds `_compute_least_squares` (patch.py lines 205-207): guarded on
both matrices being non-None; `np.linalg.lstsq` is the external collaborator
`lstsq`, returning (solution, residuals, rank, singular values); only the
solution is kept — the other three values, rank included, are discarded, and
nothing is printed. -/
def lstsqStage
    (lstsq : List (List ℚ) → List (List ℚ) →
      List (List ℚ) × List (List ℚ) × ℕ × List ℚ)
    (st : PatchState) : PatchState :=
  match st.a_matrix, st.b_matrix with
  | some a, some b => { st with result := some (lstsq a b).1 }
  | _, _ => st

/-- Embeds `run_patch` (patch.py lines 56-64): the four stages in sequence,
starting from the freshly constructed state. -/
def runPatch (cosAz sinAz : ℚ) (lines : List (String × List Sounding))
    (gridFn : List (String × List Sounding) → GridData)
    (lstsq : List (List ℚ) → List (List ℚ) →
      List (List ℚ) × List (List ℚ) × ℕ × List ℚ) : PatchState :=
  lstsqStage lstsq (buildStage (lines.map Prod.fst)
    (gridStage gridFn (rotateStage cosAz sinAz lines initState)))

/-- A trivial stand-in grid used to instantiate the external gridding
collaborator at concrete inputs. -/
def gridFn0 : List (String × List Sounding) → GridData :=
  fun _ => ⟨0, 0, 0, 0, 1, [], [], [], [], []⟩

/-- A stand-in least-squares routine reporting a rank-deficient system
(rank 3 of 6) and a fixed solution, used to instantiate `np.linalg.lstsq`
at concrete inputs. -/
def lstsqRank3 : List (List ℚ) → List (List ℚ) →
    List (List ℚ) × List (List ℚ) × ℕ × List ℚ :=
  fun _ _ => ([[1], [2]], [], 3, [])

theorem maskedVals_length {α : Type} (mask : List Bool) (v : List α)
    (h : mask.length = v.length) :
    (maskedVals mask v).length = mask.count true := by
  induction mask generalizing v with
  | nil => simp [maskedVals]
  | cons b ms ih =>
    cases v with
    | nil => simp at h
    | cons w vs =>
      cases b with
      | true => simp [maskedVals, List.count_cons, ih vs (by simpa using h)]
      | false => simp [maskedVals, List.count_cons, ih vs (by simpa using h)]

theorem maskedVals_getElem? {α : Type} (mask : List Bool) (v : List α) (j : ℕ)
    (hlen : mask.length = v.length) (hj : mask[j]? = some true) :
    (maskedVals mask v)[(mask.take j).count true]? = v[j]? := by
  induction mask generalizing v j with
  | nil => simp at hj
  | cons b ms ih =>
    cases v with
    | nil => simp at hlen
    | cons w vs =>
      cases j with
      | zero =>
        simp at hj
        subst hj
        simp [maskedVals]
      | succ k =>
        have hlen' : ms.length = vs.length := by simpa using hlen
        have hj' : ms[k]? = some true := by simpa using hj
        cases b with
        | true =>
          simpa [maskedVals, List.count_cons] using ih vs k hlen' hj'
        | false =>
          simpa [maskedVals, List.count_cons] using ih vs k hlen' hj'

theorem columnStack2_getElem? (c1 c2 : List ℚ) (k : ℕ) (a1 a2 : ℚ)
    (h1 : c1[k]? = some a1) (h2 : c2[k]? = some a2) :
    (columnStack2 c1 c2)[k]? = some [a1, a2] := by
  unfold columnStack2
  rw [List.getElem?_zipWith_eq_some]
  exact ⟨a1, a2, h1, h2, rfl⟩

theorem columnStack6_getElem? (c1 c2 c3 c4 c5 c6 : List ℚ) (k : ℕ)
    (a1 a2 a3 a4 a5 a6 : ℚ)
    (h1 : c1[k]? = some a1) (h2 : c2[k]? = some a2) (h3 : c3[k]? = some a3)
    (h4 : c4[k]? = some a4) (h5 : c5[k]? = some a5) (h6 : c6[k]? = some a6) :
    (columnStack6 c1 c2 c3 c4 c5 c6)[k]? = some [a1, a2, a3, a4, a5, a6] := by
  unfold columnStack6
  rw [List.getElem?_zipWith_eq_some]
  refine ⟨a1, [a2, a3, a4, a5, a6], h1, ?_, rfl⟩
  rw [List.getElem?_zipWith_eq_some]
  refine ⟨a2, [a3, a4, a5, a6], h2, ?_, rfl⟩
  rw [List.getElem?_zipWith_eq_some]
  refine ⟨a3, [a4, a5, a6], h3, ?_, rfl⟩
  rw [List.getElem?_zipWith_eq_some]
  refine ⟨a4, [a5, a6], h4, ?_, rfl⟩
  rw [List.getElem?_zipWith_eq_some]
  exact ⟨a5, a6, h5, h6, rfl⟩

theorem zipWith_getElem?_some {α β γ : Type} (f : α → β → γ) (u : List α)
    (v : List β) (k : ℕ) (a : α) (b : β)
    (ha : u[k]? = some a) (hb : v[k]? = some b) :
    (List.zipWith f u v)[k]? = some (f a b) := by
  rw [List.getElem?_zipWith_eq_some]
  exact ⟨a, b, ha, hb, rfl⟩

theorem designMatrix_length (d xs ys ny : List ℚ) (m : ℕ)
    (hd : d.length = m) (hxs : xs.length = m) (hys : ys.length = m)
    (hny : ny.length = m) :
    (designMatrix d xs ys ny).length = m := by
  simp [designMatrix, columnStack6, List.length_zipWith, hd, hxs, hys, hny]

/-- C1: for shape-aligned layers, the design matrix and observation matrix
built by `_build_patch_test_values` have row counts equal to the number of
true entries of the valid-overlap mask (line-one depth non-missing AND
line-two depth non-missing), and the row corresponding to a mask-true cell
j (at row position = number of true mask entries before j) is exactly
`[y_slope*depth - node_y, x_slope*depth, x_slope*node_y, x_slope, y_slope,
y_slope*node_y]` in the design matrix and `[lineone, linetwo]` in the
observation matrix. -/
theorem buildMatrices_spec (dpth xslope yslope nodeY : List ℚ)
    (lineone linetwo : List (Option ℚ)) (n : ℕ)
    (hd : dpth.length = n) (hxs : xslope.length = n) (hys : yslope.length = n)
    (hny : nodeY.length = n) (h1 : lineone.length = n) (h2 : linetwo.length = n) :
    (buildMatrices dpth xslope yslope nodeY lineone linetwo).1.length =
      (validMask lineone linetwo).count true ∧
    (buildMatrices dpth xslope yslope nodeY lineone linetwo).2.length =
      (validMask lineone linetwo).count true ∧
    ∀ (j : ℕ) (dj xj yj nj o1 o2 : ℚ),
      (validMask lineone linetwo)[j]? = some true →
      dpth[j]? = some dj → xslope[j]? = some xj → yslope[j]? = some yj →
      nodeY[j]? = some nj → lineone[j]? = some (some o1) →
      linetwo[j]? = some (some o2) →
      (buildMatrices dpth xslope yslope nodeY lineone
          linetwo).1[((validMask lineone linetwo).take j).count true]? =
        some [yj * dj - nj, xj * dj, xj * nj, xj, yj, yj * nj] ∧
      (buildMatrices dpth xslope yslope nodeY lineone
          linetwo).2[((validMask lineone linetwo).take j).count true]? =
        some [o1, o2] := by
  have hmask : (validMask lineone linetwo).length = n := by
    simp [validMask, List.length_zipWith, h1, h2]
  have hdv := maskedVals_length (validMask lineone linetwo) dpth (hmask.trans hd.symm)
  have hnyv := maskedVals_length (validMask lineone linetwo) nodeY (hmask.trans hny.symm)
  have hxsv := maskedVals_length (validMask lineone linetwo) xslope (hmask.trans hxs.symm)
  have hysv := maskedVals_length (validMask lineone linetwo) yslope (hmask.trans hys.symm)
  have hl1v := maskedVals_length (validMask lineone linetwo)
    (lineone.map (fun o => o.getD 0)) (by simpa using hmask.trans h1.symm)
  have hl2v := maskedVals_length (validMask lineone linetwo)
    (linetwo.map (fun o => o.getD 0)) (by simpa using hmask.trans h2.symm)
  refine ⟨?_, ?_, ?_⟩
  · exact designMatrix_length _ _ _ _ _ hdv hxsv hysv hnyv
  · simp [buildMatrices, columnStack2, List.length_zipWith, hl1v, hl2v]
  · intro j dj xj yj nj o1 o2 hmj hdj hxj hyj hnj h1j h2j
    have gdv := maskedVals_getElem? (validMask lineone linetwo) dpth j
      (hmask.trans hd.symm) hmj
    have gnyv := maskedVals_getElem? (validMask lineone linetwo) nodeY j
      (hmask.trans hny.symm) hmj
    have gxsv := maskedVals_getElem? (validMask lineone linetwo) xslope j
      (hmask.trans hxs.symm) hmj
    have gysv := maskedVals_getElem? (validMask lineone linetwo) yslope j
      (hmask.trans hys.symm) hmj
    have gl1v := maskedVals_getElem? (validMask lineone linetwo)
      (lineone.map (fun o => o.getD 0)) j (by simpa using hmask.trans h1.symm) hmj
    have gl2v := maskedVals_getElem? (validMask lineone linetwo)
      (linetwo.map (fun o => o.getD 0)) j (by simpa using hmask.trans h2.symm) hmj
    rw [hdj] at gdv
    rw [hnj] at gnyv
    rw [hxj] at gxsv
    rw [hyj] at gysv
    rw [List.getElem?_map, h1j] at gl1v
    rw [List.getElem?_map, h2j] at gl2v
    simp only [Option.map_some', Option.getD_some] at gl1v gl2v
    constructor
    · exact columnStack6_getElem? _ _ _ _ _ _ _ _ _ _ _ _ _
        (zipWith_getElem?_some _ _ _ _ _ _
          (zipWith_getElem?_some _ _ _ _ _ _ gysv gdv) gnyv)
        (zipWith_getElem?_some _ _ _ _ _ _ gxsv gdv)
        (zipWith_getElem?_some _ _ _ _ _ _ gxsv gnyv)
        gxsv gysv
        (zipWith_getElem?_some _ _ _ _ _ _ gysv gnyv)
    · exact columnStack2_getElem? _ _ _ _ _ gl1v gl2v

/-- Witness for C1 at a concrete grid of two cells, of which exactly one
(index 0) is a valid-overlap cell: row counts are 1 and row 0 holds the six
design values and the two observed depths. -/
theorem buildMatrices_spec_witness :
    (buildMatrices [2, 3] [5, 7] [11, 13] [4, 6]
        [some 1, none] [some 9, some 8]).1.length =
      (validMask [some 1, none] [some 9, some 8]).count true ∧
    (buildMatrices [2, 3] [5, 7] [11, 13] [4, 6]
        [some 1, none] [some 9, some 8]).1[0]? =
      some [11 * 2 - 4, 5 * 2, 5 * 4, 5, 11, 11 * 4] ∧
    (buildMatrices [2, 3] [5, 7] [11, 13] [4, 6]
        [some 1, none] [some 9, some 8]).2[0]? = some [1, 9] := by
  have h := buildMatrices_spec [2, 3] [5, 7] [11, 13] [4, 6]
    [some 1, none] [some 9, some 8] 2 rfl rfl rfl rfl rfl rfl
  have hrow := h.2.2 0 2 5 11 4 1 9 (by decide) rfl rfl rfl rfl rfl rfl
  exact ⟨h.1, by simpa using hrow.1, by simpa using hrow.2⟩

theorem arange_length_eq (lo hi step : ℚ) (n : ℕ) (hstep : 0 < step)
    (h1 : hi - lo ≤ n * step) (h2 : (n : ℚ) * step - step < hi - lo) :
    (arange lo hi step).length = n := by
  have hceil : ⌈(hi - lo) / step⌉ = (n : ℤ) := by
    rw [Int.ceil_eq_iff]
    constructor
    · push_cast
      rw [lt_div_iff₀ hstep]
      linarith
    · push_cast
      rw [div_le_iff₀ hstep]
      linarith
  simp [arange, hceil]

theorem arange_getElem? (lo hi step : ℚ) (i : ℕ)
    (hi2 : i < (arange lo hi step).length) :
    (arange lo hi step)[i]? = some (lo + (i : ℚ) * step) := by
  unfold arange at hi2 ⊢
  rw [List.getElem?_map, List.getElem?_range (by simpa using hi2)]
  rfl

theorem flatten_getElem?_uniform {α : Type} (rows : List (List α)) (nx : ℕ)
    (h : ∀ r ∈ rows, r.length = nx) (j i : ℕ) (hix : i < nx) :
    rows.flatten[j * nx + i]? = rows[j]?.bind (fun r => r[i]?) := by
  induction rows generalizing j with
  | nil => simp
  | cons r rs ih =>
    have hr : r.length = nx := h r (by simp)
    cases j with
    | zero =>
      simp only [List.flatten_cons, Nat.zero_mul, Nat.zero_add]
      rw [List.getElem?_append_left (by omega)]
      simp
    | succ k =>
      have hidx : (k + 1) * nx + i = r.length + (k * nx + i) := by
        rw [hr]; ring
      simp only [List.flatten_cons, hidx]
      rw [List.getElem?_append_right (by omega)]
      have := ih (fun r hm => h r (by simp [hm])) k
      simpa using this

/-- C8: the node-center coordinate meshes built in
`_build_patch_test_values` have one row per y-step and one column per
x-step of the grid extent (the shape the shape-aligned grid layers share
under the gridding collaborator's contract), and at column i, row j they
hold `min_x + i*res + res/2` and `min_y + j*res + res/2` respectively; the
row-major flattened y mesh holds `min_y + j*res + res/2` at flat position
`j*nx + i`, so that boolean masking (`maskedVals`) reads the center
coordinates of exactly the overlap cells. -/
theorem nodeMesh_spec (minx miny maxx maxy res : ℚ) (i j : ℕ)
    (hix : i < (arange minx maxx res).length)
    (hjy : j < (arange miny maxy res).length) :
    (nodeMesh minx miny maxx maxy res).1.length =
      (arange miny maxy res).length ∧
    (nodeMesh minx miny maxx maxy res).2.length =
      (arange miny maxy res).length ∧
    (∀ r ∈ (nodeMesh minx miny maxx maxy res).1,
      r.length = (arange minx maxx res).length) ∧
    (∀ r ∈ (nodeMesh minx miny maxx maxy res).2,
      r.length = (arange minx maxx res).length) ∧
    ((nodeMesh minx miny maxx maxy res).1[j]?.bind (fun r => r[i]?)) =
      some (minx + (i : ℚ) * res + res / 2) ∧
    ((nodeMesh minx miny maxx maxy res).2[j]?.bind (fun r => r[i]?)) =
      some (miny + (j : ℚ) * res + res / 2) ∧
    (nodeYFlat minx miny maxx maxy res)[j * (arange minx maxx res).length + i]? =
      some (miny + (j : ℚ) * res + res / 2) := by
  have hx := arange_getElem? minx maxx res i hix
  have hy := arange_getElem? miny maxy res j hjy
  have hyv : ((arange miny maxy res).map (fun w => w + res / 2))[j]? =
      some (miny + (j : ℚ) * res + res / 2) := by
    rw [List.getElem?_map, hy]
    rfl
  have hxv : ((arange minx maxx res).map (fun v => v + res / 2))[i]? =
      some (minx + (i : ℚ) * res + res / 2) := by
    rw [List.getElem?_map, hx]
    rfl
  have hrows : ∀ r ∈ (nodeMesh minx miny maxx maxy res).2,
      r.length = (arange minx maxx res).length := by
    intro r hr
    simp only [nodeMesh, List.mem_map] at hr
    obtain ⟨w, _, rfl⟩ := hr
    simp
  refine ⟨by simp [nodeMesh], by simp [nodeMesh], ?_, hrows, ?_, ?_, ?_⟩
  · intro r hr
    simp only [nodeMesh, List.mem_map] at hr
    obtain ⟨w, _, rfl⟩ := hr
    simp
  · simp only [nodeMesh]
    rw [List.getElem?_map, hyv]
    simpa using hxv
  · simp only [nodeMesh]
    rw [List.getElem?_map, hyv]
    simp only [Option.map_some', Option.some_bind]
    rw [List.getElem?_map, hxv]
    rfl
  · rw [nodeYFlat, flatten_getElem?_uniform _ _ hrows j i (by simpa using hix)]
    simp only [nodeMesh]
    rw [List.getElem?_map, hyv]
    simp only [Option.map_some', Option.some_bind]
    rw [List.getElem?_map, hxv]
    rfl

/-- Witness for C8 on a concrete 2-column, 1-row grid: extent x ∈ [0, 4),
y ∈ [0, 2), resolution 2; the cell at column 1, row 0 has center
(0 + 1*2 + 2/2, 0 + 0*2 + 2/2) = (3, 1). -/
theorem nodeMesh_spec_witness :
    ((nodeMesh 0 0 4 2 2).1[0]?.bind (fun r => r[1]?)) =
      some (0 + (1 : ℚ) * 2 + 2 / 2) ∧
    ((nodeMesh 0 0 4 2 2).2[0]?.bind (fun r => r[1]?)) =
      some (0 + (0 : ℚ) * 2 + 2 / 2) := by
  have hx : (arange 0 4 2).length = 2 :=
    arange_length_eq 0 4 2 2 (by norm_num) (by norm_num) (by norm_num)
  have hy : (arange 0 2 2).length = 1 :=
    arange_length_eq 0 2 2 1 (by norm_num) (by norm_num) (by norm_num)
  have h := nodeMesh_spec 0 0 4 2 2 1 0 (by omega) (by omega)
  exact ⟨by simpa using h.2.2.2.2.1, by simpa using h.2.2.2.2.2.1⟩

theorem foldl_min_le {α : Type} [LinearOrder α] (l : List α) (a : α) :
    l.foldl min a ≤ a := by
  induction l generalizing a with
  | nil => exact le_refl a
  | cons c t ih => exact le_trans (ih (min a c)) (min_le_left a c)

theorem foldl_min_le_mem {α : Type} [LinearOrder α] (l : List α) (a b : α)
    (hb : b ∈ l) : l.foldl min a ≤ b := by
  induction l generalizing a with
  | nil => simp at hb
  | cons c t ih =>
    rcases List.mem_cons.mp hb with rfl | hbt
    · exact le_trans (foldl_min_le t (min a b)) (min_le_right a b)
    · exact ih (min a c) hbt

theorem foldl_min_mem {α : Type} [LinearOrder α] (l : List α) (a : α) :
    l.foldl min a = a ∨ l.foldl min a ∈ l := by
  induction l generalizing a with
  | nil => exact Or.inl rfl
  | cons c t ih =>
    rcases ih (min a c) with h | h
    · rcases min_choice a c with hm | hm
      · exact Or.inl (by rw [List.foldl_cons, h, hm])
      · exact Or.inr (by rw [List.foldl_cons, h, hm]; exact List.mem_cons_self c t)
    · exact Or.inr (List.mem_cons_of_mem c h)

theorem listMinD_mem {α : Type} [LinearOrder α] (d : α) (l : List α)
    (h : l ≠ []) : listMinD d l ∈ l := by
  cases l with
  | nil => exact absurd rfl h
  | cons a r =>
    rcases foldl_min_mem r a with hm | hm
    · simp [listMinD, hm]
    · exact List.mem_cons_of_mem a hm

theorem listMinD_le {α : Type} [LinearOrder α] (d : α) (l : List α) (b : α)
    (hb : b ∈ l) : listMinD d l ≤ b := by
  cases l with
  | nil => simp at hb
  | cons a r =>
    rcases List.mem_cons.mp hb with rfl | hbt
    · exact foldl_min_le r b
    · exact foldl_min_le_mem r a b hbt

/-- C2 counterexample: a non-empty point buffer whose x values are all zero
is rejected by the `finalx.any()` truthiness guard — no point is mapped and
`self.points` stays None — refuting the claim for "every non-empty point
buffer". -/
theorem generateRotatedPoints_counterexample :
    generateRotatedPoints 90 [⟨0, 5, 3⟩] = none := by
  rw [generateRotatedPoints]
  simp

/-- C2 amended: for every point buffer holding at least one point with
nonzero x (the `finalx.any()` guard) and every azimuth, the rotation maps
each point (x, y, z) to
(min_x + cos θ (x − min_x) − sin θ (y − min_y),
 min_y + sin θ (x − min_x) + cos θ (y − min_y), z), with
θ = (az − 90)·π/180 and pivot (min_x, min_y) the componentwise minimum over
the whole buffer: the pivot is attained in the buffer and is a lower bound
of it, and z is untouched. -/
theorem generateRotatedPoints_spec (az : ℝ) (pts : List SoundingR)
    (h : ∃ p ∈ pts, p.x ≠ 0) :
    (∀ (k : ℕ) (p : SoundingR), pts[k]? = some p →
      (generateRotatedPoints az pts).bind (fun res => res[k]?) =
        some ⟨listMinD 0 (pts.map (fun q => q.x)) +
                Real.cos ((az - 90) * Real.pi / 180) *
                  (p.x - listMinD 0 (pts.map (fun q => q.x))) -
                Real.sin ((az - 90) * Real.pi / 180) *
                  (p.y - listMinD 0 (pts.map (fun q => q.y))),
              listMinD 0 (pts.map (fun q => q.y)) +
                Real.sin ((az - 90) * Real.pi / 180) *
                  (p.x - listMinD 0 (pts.map (fun q => q.x))) +
                Real.cos ((az - 90) * Real.pi / 180) *
                  (p.y - listMinD 0 (pts.map (fun q => q.y))),
              p.z⟩) ∧
    listMinD 0 (pts.map (fun q => q.x)) ∈ pts.map (fun q => q.x) ∧
    listMinD 0 (pts.map (fun q => q.y)) ∈ pts.map (fun q => q.y) ∧
    (∀ a ∈ pts.map (fun q => q.x), listMinD 0 (pts.map (fun q => q.x)) ≤ a) ∧
    (∀ a ∈ pts.map (fun q => q.y), listMinD 0 (pts.map (fun q => q.y)) ≤ a) := by
  have hne : pts ≠ [] := by
    rcases h with ⟨p, hp, _⟩
    exact List.ne_nil_of_mem hp
  have hnex : pts.map (fun q => q.x) ≠ [] := by
    simpa using hne
  have hney : pts.map (fun q => q.y) ≠ [] := by
    simpa using hne
  refine ⟨?_, listMinD_mem 0 _ hnex, listMinD_mem 0 _ hney,
    fun a ha => listMinD_le 0 _ a ha, fun a ha => listMinD_le 0 _ a ha⟩
  intro k p hk
  rw [generateRotatedPoints, if_pos h]
  simp only [Option.some_bind]
  rw [List.getElem?_map, hk]
  rfl

/-- Witness for C2 at the concrete buffer [(1, 2, 3)] and azimuth 90
(θ = 0): the guard holds since x = 1 ≠ 0; point 0 is mapped by the rotation
formula about the pivot, and the pivot coordinates are attained in the
buffer. -/
theorem generateRotatedPoints_spec_witness :
    (generateRotatedPoints 90 [⟨1, 2, 3⟩]).bind (fun res => res[0]?) =
      some ⟨listMinD 0 ([(⟨1, 2, 3⟩ : SoundingR)].map (fun q => q.x)) +
              Real.cos ((90 - 90) * Real.pi / 180) *
                ((⟨1, 2, 3⟩ : SoundingR).x -
                  listMinD 0 ([(⟨1, 2, 3⟩ : SoundingR)].map (fun q => q.x))) -
              Real.sin ((90 - 90) * Real.pi / 180) *
                ((⟨1, 2, 3⟩ : SoundingR).y -
                  listMinD 0 ([(⟨1, 2, 3⟩ : SoundingR)].map (fun q => q.y))),
            listMinD 0 ([(⟨1, 2, 3⟩ : SoundingR)].map (fun q => q.y)) +
              Real.sin ((90 - 90) * Real.pi / 180) *
                ((⟨1, 2, 3⟩ : SoundingR).x -
                  listMinD 0 ([(⟨1, 2, 3⟩ : SoundingR)].map (fun q => q.x))) +
              Real.cos ((90 - 90) * Real.pi / 180) *
                ((⟨1, 2, 3⟩ : SoundingR).y -
                  listMinD 0 ([(⟨1, 2, 3⟩ : SoundingR)].map (fun q => q.y))),
            (⟨1, 2, 3⟩ : SoundingR).z⟩ ∧
    listMinD 0 ([(⟨1, 2, 3⟩ : SoundingR)].map (fun q => q.x)) ∈
      [(⟨1, 2, 3⟩ : SoundingR)].map (fun q => q.x) ∧
    listMinD 0 ([(⟨1, 2, 3⟩ : SoundingR)].map (fun q => q.y)) ∈
      [(⟨1, 2, 3⟩ : SoundingR)].map (fun q => q.y) :=
  have h := generateRotatedPoints_spec 90 [⟨1, 2, 3⟩]
    ⟨⟨1, 2, 3⟩, by simp, by norm_num⟩
  ⟨h.1 0 ⟨1, 2, 3⟩ rfl, h.2.1, h.2.2.1⟩

/-- C3: for a run over exactly two lines where line one returns n1 points
and line two returns n2 points, the recorded index ranges are [0, n1) for
line one and [n1, n1 + n2) for line two; line one's end equals line two's
start, and the two half-open ranges cover [0, n1 + n2) — the whole point
buffer — with no gaps and no overlaps. -/
theorem mbIndexes_two_lines (cosAz sinAz : ℚ) (a b : String)
    (pts1 pts2 : List Sounding) (st : PatchState) :
    (rotateStage cosAz sinAz [(a, pts1), (b, pts2)] st).indexes =
      [(a, 0, pts1.length), (b, pts1.length, pts1.length + pts2.length)] ∧
    ((rotateStage cosAz sinAz [(a, pts1), (b, pts2)] st).indexes[0]?.map
        (fun t => t.2.2)) =
      ((rotateStage cosAz sinAz [(a, pts1), (b, pts2)] st).indexes[1]?.map
        (fun t => t.2.1)) ∧
    ((List.map Prod.snd [(a, pts1), (b, pts2)]).flatten).length =
      pts1.length + pts2.length ∧
    (∀ k : ℕ, k < pts1.length + pts2.length ↔
      ((0 ≤ k ∧ k < pts1.length) ∨
        (pts1.length ≤ k ∧ k < pts1.length + pts2.length))) ∧
    (∀ k : ℕ, ¬((0 ≤ k ∧ k < pts1.length) ∧
      (pts1.length ≤ k ∧ k < pts1.length + pts2.length))) := by
  have hidx : (rotateStage cosAz sinAz [(a, pts1), (b, pts2)] st).indexes =
      [(a, 0, pts1.length), (b, pts1.length, pts1.length + pts2.length)] := by
    rw [rotateStage]
    dsimp only
    split <;> simp [mbIndexes]
  refine ⟨hidx, by rw [hidx]; rfl, by simp, ?_, ?_⟩
  · intro k; omega
  · intro k; omega

/-- C9: construction with a mapping missing one or more recognized keys
errors naming exactly the missing keys; a complete mapping or `None` never
errors. -/
theorem patchInit_missing_keys (ks : List String) :
    (missingKeys ks ≠ [] → patchInit (some ks) = .error (missingKeys ks)) ∧
    (missingKeys ks = [] → patchInit (some ks) = .ok ks) ∧
    patchInit none = .ok defaultParameterKeys := by
  refine ⟨fun h => ?_, fun h => ?_, rfl⟩
  · simp [patchInit, h]
  · simp [patchInit, h]

/-- Witness for C9 at a concrete input: a mapping holding every recognized
key except `heading_unc` errors naming exactly `["heading_unc"]`, and a
complete mapping is accepted. -/
theorem patchInit_missing_keys_witness :
    patchInit (some ["roll", "roll_unc", "pitch", "pitch_unc", "heading",
        "x_unc", "y_unc", "h_scale_unc"]) = .error ["heading_unc"] ∧
    patchInit (some defaultParameterKeys) = .ok defaultParameterKeys := by
  have h1 := patchInit_missing_keys ["roll", "roll_unc", "pitch", "pitch_unc",
    "heading", "x_unc", "y_unc", "h_scale_unc"]
  have h2 := patchInit_missing_keys defaultParameterKeys
  refine ⟨?_, h2.2.1 (by decide)⟩
  have := h1.1 (by decide)
  have hm : missingKeys ["roll", "roll_unc", "pitch", "pitch_unc", "heading",
      "x_unc", "y_unc", "h_scale_unc"] = ["heading_unc"] := by decide
  rw [hm] at this
  exact this

/-- C7 counterexample: with result `None` the reporter's entire output is the
single fixed header line — the same line every invocation starts with (a
successful run's output extends it) — so no "no result" message is emitted,
refuting the claim that a "no result" state is reported. -/
theorem displayResults_none_counterexample :
    displayResults (some ["line_a", "line_b"]) none = ["Patch test results"] ∧
    (displayResults (some ["line_a", "line_b"])
        (some [[1], [2], [3], [4], [5], [6]])).take 1 =
      displayResults (some ["line_a", "line_b"]) none := by
  exact ⟨rfl, rfl⟩

/-- C7 amended: calling the reporter while result is `None` never raises
(the embedding is total) and prints no parameter rows — the output is
exactly the fixed header, with no explicit "no result" message. -/
theorem displayResults_none (fqprLines : Option (List String)) :
    displayResults fqprLines none = ["Patch test results"] := by
  cases fqprLines <;> rfl

theorem rotateStage_preserves (cosAz sinAz : ℚ)
    (lines : List (String × List Sounding)) (st : PatchState) :
    (rotateStage cosAz sinAz lines st).grid = st.grid ∧
    (rotateStage cosAz sinAz lines st).a_matrix = st.a_matrix ∧
    (rotateStage cosAz sinAz lines st).b_matrix = st.b_matrix ∧
    (rotateStage cosAz sinAz lines st).result = st.result := by
  rw [rotateStage]
  dsimp only
  split
  · exact ⟨rfl, rfl, rfl, rfl⟩
  · exact ⟨rfl, rfl, rfl, rfl⟩

theorem gridStage_preserves (f : List (String × List Sounding) → GridData)
    (st : PatchState) :
    (gridStage f st).points = st.points ∧
    (gridStage f st).a_matrix = st.a_matrix ∧
    (gridStage f st).b_matrix = st.b_matrix ∧
    (gridStage f st).result = st.result ∧
    (gridStage f st).out = st.out := by
  unfold gridStage
  split
  · exact ⟨rfl, rfl, rfl, rfl, rfl⟩
  · split
    · exact ⟨rfl, rfl, rfl, rfl, rfl⟩
    · exact ⟨rfl, rfl, rfl, rfl, rfl⟩

theorem buildStage_preserves (names : List String) (st : PatchState) :
    (buildStage names st).points = st.points ∧
    (buildStage names st).grid = st.grid ∧
    (buildStage names st).result = st.result := by
  unfold buildStage
  split
  · exact ⟨rfl, rfl, rfl⟩
  · dsimp only
    split
    · exact ⟨rfl, rfl, rfl⟩
    · exact ⟨rfl, rfl, rfl⟩

theorem lstsqStage_preserves
    (q : List (List ℚ) → List (List ℚ) →
      List (List ℚ) × List (List ℚ) × ℕ × List ℚ) (st : PatchState) :
    (lstsqStage q st).points = st.points ∧
    (lstsqStage q st).grid = st.grid ∧
    (lstsqStage q st).a_matrix = st.a_matrix ∧
    (lstsqStage q st).b_matrix = st.b_matrix ∧
    (lstsqStage q st).out = st.out := by
  unfold lstsqStage
  split
  · exact ⟨rfl, rfl, rfl, rfl, rfl⟩
  · exact ⟨rfl, rfl, rfl, rfl, rfl⟩

theorem gridStage_of_points_none (f : List (String × List Sounding) → GridData)
    (st : PatchState) (h : st.points = none) : gridStage f st = st := by
  unfold gridStage
  rw [h]

theorem gridStage_of_points_empty (f : List (String × List Sounding) → GridData)
    (st : PatchState) (pts : List Sounding) (h : st.points = some pts)
    (h0 : pts.length = 0) : gridStage f st = st := by
  unfold gridStage
  rw [h]
  simp [h0]

theorem buildStage_of_grid_none (names : List String) (st : PatchState)
    (h : st.grid = none) : buildStage names st = st := by
  unfold buildStage
  rw [h]

theorem lstsqStage_of_matrix_none
    (q : List (List ℚ) → List (List ℚ) →
      List (List ℚ) × List (List ℚ) × ℕ × List ℚ) (st : PatchState)
    (h : st.a_matrix = none ∨ st.b_matrix = none) : lstsqStage q st = st := by
  rcases h with h | h
  · unfold lstsqStage
    rw [h]
  · rcases hA : st.a_matrix with _ | a
    · unfold lstsqStage
      rw [hA]
    · unfold lstsqStage
      rw [h, hA]

/-- C10: every stage after point collection is guarded on its predecessor's
output — `_grid` does nothing unless points is non-None and non-empty,
`_build_patch_test_values` does nothing unless grid is non-None,
`_compute_least_squares` does nothing unless both matrices are non-None —
and hence, for a full `run_patch`, if points / grid / a matrix or b matrix
end up None then every downstream field (grid, a_matrix, b_matrix, result)
is None as well; the run always returns (the stages are total). -/
theorem runPatch_stage_guards
    (gridFn : List (String × List Sounding) → GridData)
    (lstsq : List (List ℚ) → List (List ℚ) →
      List (List ℚ) × List (List ℚ) × ℕ × List ℚ)
    (names : List String) (st : PatchState)
    (cosAz sinAz : ℚ) (lines : List (String × List Sounding)) :
    (st.points = none → gridStage gridFn st = st) ∧
    (∀ pts, st.points = some pts → pts.length = 0 → gridStage gridFn st = st) ∧
    (st.grid = none → buildStage names st = st) ∧
    (st.a_matrix = none ∨ st.b_matrix = none → lstsqStage lstsq st = st) ∧
    ((runPatch cosAz sinAz lines gridFn lstsq).points = none →
      (runPatch cosAz sinAz lines gridFn lstsq).grid = none ∧
      (runPatch cosAz sinAz lines gridFn lstsq).a_matrix = none ∧
      (runPatch cosAz sinAz lines gridFn lstsq).b_matrix = none ∧
      (runPatch cosAz sinAz lines gridFn lstsq).result = none) ∧
    ((runPatch cosAz sinAz lines gridFn lstsq).grid = none →
      (runPatch cosAz sinAz lines gridFn lstsq).a_matrix = none ∧
      (runPatch cosAz sinAz lines gridFn lstsq).b_matrix = none ∧
      (runPatch cosAz sinAz lines gridFn lstsq).result = none) ∧
    (((runPatch cosAz sinAz lines gridFn lstsq).a_matrix = none ∨
        (runPatch cosAz sinAz lines gridFn lstsq).b_matrix = none) →
      (runPatch cosAz sinAz lines gridFn lstsq).result = none) := by
  refine ⟨gridStage_of_points_none gridFn st,
    fun pts hp h0 => gridStage_of_points_empty gridFn st pts hp h0,
    buildStage_of_grid_none names st,
    lstsqStage_of_matrix_none lstsq st, ?_, ?_, ?_⟩
  all_goals
    set s1 := rotateStage cosAz sinAz lines initState with hs1def
    set s2 := gridStage gridFn s1 with hs2def
    set s3 := buildStage (lines.map Prod.fst) s2 with hs3def
    have hrun : runPatch cosAz sinAz lines gridFn lstsq = lstsqStage lstsq s3 := rfl
    obtain ⟨h1g, h1a, h1b, h1r⟩ := rotateStage_preserves cosAz sinAz lines initState
    obtain ⟨h2p, h2a, h2b, h2r, _⟩ := gridStage_preserves gridFn s1
    obtain ⟨h3p, h3g, h3r⟩ := buildStage_preserves (lines.map Prod.fst) s2
    obtain ⟨h4p, h4g, h4a, h4b, _⟩ := lstsqStage_preserves lstsq s3
    rw [hrun]
  · -- points none after the run: everything downstream is none
    intro hp
    rw [h4p, h3p, h2p] at hp
    have e2 : s2 = s1 := gridStage_of_points_none gridFn s1 hp
    have hg2 : s2.grid = none := by rw [e2, h1g]; rfl
    have e3 : s3 = s2 := buildStage_of_grid_none (lines.map Prod.fst) s2 hg2
    have ha3 : s3.a_matrix = none := by rw [e3, e2, h1a]; rfl
    have e4 : lstsqStage lstsq s3 = s3 :=
      lstsqStage_of_matrix_none lstsq s3 (Or.inl ha3)
    rw [e4, e3, e2]
    exact ⟨h1g, h1a, h1b, h1r⟩
  · -- grid none after the run
    intro hg
    rw [h4g, h3g] at hg
    have e3 : s3 = s2 := buildStage_of_grid_none (lines.map Prod.fst) s2 hg
    have ha3 : s3.a_matrix = none := by rw [e3, h2a, h1a]; rfl
    have e4 : lstsqStage lstsq s3 = s3 :=
      lstsqStage_of_matrix_none lstsq s3 (Or.inl ha3)
    rw [e4, e3]
    refine ⟨?_, ?_, ?_⟩
    · rw [h2a, h1a]; rfl
    · rw [h2b, h1b]; rfl
    · rw [h2r, h1r]; rfl
  · -- a or b matrix none after the run
    intro hab
    have hab3 : s3.a_matrix = none ∨ s3.b_matrix = none := by
      rcases hab with h | h
      · exact Or.inl (by rw [h4a] at h; exact h)
      · exact Or.inr (by rw [h4b] at h; exact h)
    have e4 : lstsqStage lstsq s3 = s3 := lstsqStage_of_matrix_none lstsq s3 hab3
    rw [e4, h3r, h2r, h1r]; rfl

/-- Witness for C10 at concrete states and a concrete two-line run whose
only point has x = 0 (so every stage aborts): each guard fires and all
downstream fields stay None. -/
theorem runPatch_stage_guards_witness :
    gridStage gridFn0 initState = initState ∧
    gridStage gridFn0 { initState with points := some [] } =
      { initState with points := some [] } ∧
    buildStage ["l1", "l2"] initState = initState ∧
    lstsqStage lstsqRank3 initState = initState ∧
    ((runPatch 1 0 [("l1", [⟨0, 5, 3⟩]), ("l2", [])] gridFn0 lstsqRank3).grid = none ∧
      (runPatch 1 0 [("l1", [⟨0, 5, 3⟩]), ("l2", [])] gridFn0 lstsqRank3).a_matrix = none ∧
      (runPatch 1 0 [("l1", [⟨0, 5, 3⟩]), ("l2", [])] gridFn0 lstsqRank3).b_matrix = none ∧
      (runPatch 1 0 [("l1", [⟨0, 5, 3⟩]), ("l2", [])] gridFn0 lstsqRank3).result = none) ∧
    ((runPatch 1 0 [("l1", [⟨0, 5, 3⟩]), ("l2", [])] gridFn0 lstsqRank3).a_matrix = none ∧
      (runPatch 1 0 [("l1", [⟨0, 5, 3⟩]), ("l2", [])] gridFn0 lstsqRank3).b_matrix = none ∧
      (runPatch 1 0 [("l1", [⟨0, 5, 3⟩]), ("l2", [])] gridFn0 lstsqRank3).result = none) ∧
    (runPatch 1 0 [("l1", [⟨0, 5, 3⟩]), ("l2", [])] gridFn0 lstsqRank3).result = none :=
  ⟨(runPatch_stage_guards gridFn0 lstsqRank3 ["l1", "l2"] initState 1 0
      [("l1", [⟨0, 5, 3⟩]), ("l2", [])]).1 rfl,
   (runPatch_stage_guards gridFn0 lstsqRank3 ["l1", "l2"]
      { initState with points := some [] } 1 0
      [("l1", [⟨0, 5, 3⟩]), ("l2", [])]).2.1 [] rfl rfl,
   (runPatch_stage_guards gridFn0 lstsqRank3 ["l1", "l2"] initState 1 0
      [("l1", [⟨0, 5, 3⟩]), ("l2", [])]).2.2.1 rfl,
   (runPatch_stage_guards gridFn0 lstsqRank3 ["l1", "l2"] initState 1 0
      [("l1", [⟨0, 5, 3⟩]), ("l2", [])]).2.2.2.1 (Or.inl rfl),
   (runPatch_stage_guards gridFn0 lstsqRank3 ["l1", "l2"] initState 1 0
      [("l1", [⟨0, 5, 3⟩]), ("l2", [])]).2.2.2.2.1 rfl,
   (runPatch_stage_guards gridFn0 lstsqRank3 ["l1", "l2"] initState 1 0
      [("l1", [⟨0, 5, 3⟩]), ("l2", [])]).2.2.2.2.2.1 rfl,
   (runPatch_stage_guards gridFn0 lstsqRank3 ["l1", "l2"] initState 1 0
      [("l1", [⟨0, 5, 3⟩]), ("l2", [])]).2.2.2.2.2.2 (Or.inl rfl)⟩

/-- C4 counterexample: the data source returns one point (at x = 0, as a
coordinate may be), yet `run_patch` does not proceed to grid building —
`_generate_rotated_points` tests `finalx.any()`, numpy truthiness of the
x values, not point count — and the no-data diagnostic is printed, refuting
"whenever at least one point is returned, the pipeline proceeds to grid
building". -/
theorem runPatch_no_data_counterexample :
    (([("l1", [(⟨0, 5, 3⟩ : Sounding)]), ("l2", [])].map Prod.snd).flatten).length = 1 ∧
    (runPatch 1 0 [("l1", [⟨0, 5, 3⟩]), ("l2", [])] gridFn0 lstsqRank3).grid = none ∧
    (runPatch 1 0 [("l1", [⟨0, 5, 3⟩]), ("l2", [])] gridFn0 lstsqRank3).out =
      [noValidPointsMsg ["l1", "l2"]] :=
  ⟨rfl, rfl, rfl⟩

/-- C4 amended: `run_patch` terminates early with the no-data diagnostic
naming the requested line set — result staying None and nothing raising
(the embedding is total) — exactly when every x coordinate returned by the
data source is zero (numpy truthiness of `finalx.any()`; in particular when
zero points are returned for both lines); whenever at least one returned
point has nonzero x, the pipeline proceeds to grid building. -/
theorem runPatch_no_data_guard (cosAz sinAz : ℚ)
    (lines : List (String × List Sounding))
    (gridFn : List (String × List Sounding) → GridData)
    (lstsq : List (List ℚ) → List (List ℚ) →
      List (List ℚ) × List (List ℚ) × ℕ × List ℚ) :
    ((∀ p ∈ (lines.map Prod.snd).flatten, p.x = 0) →
      (runPatch cosAz sinAz lines gridFn lstsq).points = none ∧
      (runPatch cosAz sinAz lines gridFn lstsq).grid = none ∧
      (runPatch cosAz sinAz lines gridFn lstsq).a_matrix = none ∧
      (runPatch cosAz sinAz lines gridFn lstsq).b_matrix = none ∧
      (runPatch cosAz sinAz lines gridFn lstsq).result = none ∧
      (runPatch cosAz sinAz lines gridFn lstsq).out =
        [noValidPointsMsg (lines.map Prod.fst)]) ∧
    ((∃ p ∈ (lines.map Prod.snd).flatten, p.x ≠ 0) →
      (runPatch cosAz sinAz lines gridFn lstsq).grid.isSome = true) := by
  constructor
  · intro hall
    have hfalse : ((lines.map Prod.snd).flatten.any
        (fun p => decide (p.x ≠ 0))) = false := by
      rw [List.any_eq_false]
      intro p hp
      simp [hall p hp]
    have hs1 : rotateStage cosAz sinAz lines initState =
        { initState with
          indexes := mbIndexes (lines.map (fun l => (l.1, l.2.length))) 0,
          out := [noValidPointsMsg (lines.map Prod.fst)] } := by
      rw [rotateStage]
      dsimp only
      rw [if_neg (by rw [hfalse]; exact Bool.false_ne_true)]
      simp [initState]
    have e2 : gridStage gridFn (rotateStage cosAz sinAz lines initState) =
        rotateStage cosAz sinAz lines initState :=
      gridStage_of_points_none gridFn _ (by rw [hs1]; rfl)
    have hrun : runPatch cosAz sinAz lines gridFn lstsq =
        rotateStage cosAz sinAz lines initState := by
      unfold runPatch
      rw [e2, buildStage_of_grid_none _ _ (by rw [hs1]; rfl),
        lstsqStage_of_matrix_none _ _ (Or.inl (by rw [hs1]; rfl))]
    rw [hrun, hs1]
    exact ⟨rfl, rfl, rfl, rfl, rfl, rfl⟩
  · rintro ⟨p, hp, hpx⟩
    have htrue : ((lines.map Prod.snd).flatten.any
        (fun p => decide (p.x ≠ 0))) = true :=
      List.any_eq_true.mpr ⟨p, hp, by simpa using hpx⟩
    obtain ⟨l, hs1p, hlen⟩ : ∃ l,
        (rotateStage cosAz sinAz lines initState).points = some l ∧
        0 < l.length := by
      rw [rotateStage]
      dsimp only
      rw [if_pos htrue]
      refine ⟨_, rfl, ?_⟩
      rw [List.length_map]
      exact List.length_pos.mpr (List.ne_nil_of_mem hp)
    obtain ⟨g, hg⟩ : ∃ g,
        (gridStage gridFn (rotateStage cosAz sinAz lines initState)).grid =
          some g := by
      unfold gridStage
      rw [hs1p]
      dsimp only
      rw [if_pos hlen]
      exact ⟨_, rfl⟩
    have h4 := (lstsqStage_preserves lstsq
      (buildStage (lines.map Prod.fst)
        (gridStage gridFn (rotateStage cosAz sinAz lines initState)))).2.1
    have h3 := (buildStage_preserves (lines.map Prod.fst)
      (gridStage gridFn (rotateStage cosAz sinAz lines initState))).2.1
    unfold runPatch
    rw [h4, h3, hg]
    rfl

/-- Witness for C4 at two concrete two-line inputs: one whose single point
has x = 0 (all-zero x: the run aborts with the no-data diagnostic) and one
whose single point has x = 3 (grid building proceeds). -/
theorem runPatch_no_data_guard_witness :
    ((runPatch 1 0 [("la", [⟨0, 4, 2⟩]), ("lb", [])] gridFn0 lstsqRank3).points = none ∧
      (runPatch 1 0 [("la", [⟨0, 4, 2⟩]), ("lb", [])] gridFn0 lstsqRank3).grid = none ∧
      (runPatch 1 0 [("la", [⟨0, 4, 2⟩]), ("lb", [])] gridFn0 lstsqRank3).a_matrix = none ∧
      (runPatch 1 0 [("la", [⟨0, 4, 2⟩]), ("lb", [])] gridFn0 lstsqRank3).b_matrix = none ∧
      (runPatch 1 0 [("la", [⟨0, 4, 2⟩]), ("lb", [])] gridFn0 lstsqRank3).result = none ∧
      (runPatch 1 0 [("la", [⟨0, 4, 2⟩]), ("lb", [])] gridFn0 lstsqRank3).out =
        [noValidPointsMsg ["la", "lb"]]) ∧
    (runPatch 1 0 [("lc", [⟨3, 4, 2⟩]), ("ld", [])] gridFn0 lstsqRank3).grid.isSome =
      true :=
  ⟨(runPatch_no_data_guard 1 0 [("la", [⟨0, 4, 2⟩]), ("lb", [])] gridFn0
      lstsqRank3).1 (by decide),
   (runPatch_no_data_guard 1 0 [("lc", [⟨3, 4, 2⟩]), ("ld", [])] gridFn0
      lstsqRank3).2 ⟨⟨3, 4, 2⟩, by decide, by decide⟩⟩

/-- C5: if after a successful grid build (grid non-None) the valid-overlap
mask has zero true entries, `_build_patch_test_values` only appends the
no-overlap diagnostic naming the two lines — the matrices stay None, no
least-squares solve is attempted (`_compute_least_squares` leaves the state
unchanged) and result stays None; nothing raises (the embedding is total). -/
theorem buildStage_no_overlap (names : List String) (st : PatchState)
    (g : GridData)
    (lstsq : List (List ℚ) → List (List ℚ) →
      List (List ℚ) × List (List ℚ) × ℕ × List ℚ)
    (hg : st.grid = some g)
    (hmask : (validMask g.lineone g.linetwo).any (fun b => b) = false)
    (ha : st.a_matrix = none) (_hb : st.b_matrix = none)
    (hres : st.result = none) :
    buildStage names st = { st with out := st.out ++ [noOverlapMsg names] } ∧
    (lstsqStage lstsq (buildStage names st)).result = none ∧
    (lstsqStage lstsq (buildStage names st)).out =
      st.out ++ [noOverlapMsg names] := by
  have hbs : buildStage names st =
      { st with out := st.out ++ [noOverlapMsg names] } := by
    unfold buildStage
    rw [hg]
    dsimp only
    rw [if_neg (by rw [hmask]; exact Bool.false_ne_true)]
  have e4 : lstsqStage lstsq (buildStage names st) = buildStage names st :=
    lstsqStage_of_matrix_none lstsq _ (Or.inl (by rw [hbs]; exact ha))
  refine ⟨hbs, ?_, ?_⟩
  · rw [e4, hbs]
    exact hres
  · rw [e4, hbs]

/-- Witness for C5 at a concrete one-cell grid where line one's depth layer
is NaN (so the mask is all false): only the no-overlap diagnostic is
emitted and result stays None. -/
theorem buildStage_no_overlap_witness :
    buildStage ["l1", "l2"]
        { initState with grid := some ⟨0, 0, 2, 2, 1, [5], [0], [0], [none], [some 1]⟩ } =
      { { initState with grid := some ⟨0, 0, 2, 2, 1, [5], [0], [0], [none], [some 1]⟩ } with
        out := ({ initState with
          grid := some ⟨0, 0, 2, 2, 1, [5], [0], [0], [none], [some 1]⟩ } : PatchState).out ++
          [noOverlapMsg ["l1", "l2"]] } ∧
    (lstsqStage lstsqRank3 (buildStage ["l1", "l2"]
        { initState with
          grid := some ⟨0, 0, 2, 2, 1, [5], [0], [0], [none], [some 1]⟩ })).result = none ∧
    (lstsqStage lstsqRank3 (buildStage ["l1", "l2"]
        { initState with
          grid := some ⟨0, 0, 2, 2, 1, [5], [0], [0], [none], [some 1]⟩ })).out =
      ({ initState with
        grid := some ⟨0, 0, 2, 2, 1, [5], [0], [0], [none], [some 1]⟩ } : PatchState).out ++
        [noOverlapMsg ["l1", "l2"]] :=
  buildStage_no_overlap ["l1", "l2"]
    { initState with grid := some ⟨0, 0, 2, 2, 1, [5], [0], [0], [none], [some 1]⟩ }
    ⟨0, 0, 2, 2, 1, [5], [0], [0], [none], [some 1]⟩ lstsqRank3
    rfl (by decide) rfl rfl rfl

/-- C6 counterexample: with both matrices set, and a least-squares routine
reporting a rank-deficient system (rank 3 of 6), `_compute_least_squares`
emits no diagnostic whatsoever (the printed output stays empty) — the rank
returned by `np.linalg.lstsq` is bound to a local and discarded — refuting
"the solver stage reports the numerical rank (and any rank deficiency) as a
diagnostic to the caller"; the solution is still stored. -/
theorem lstsqStage_rank_counterexample :
    (lstsqRank3 [[1]] [[1]]).2.2.1 = 3 ∧
    (lstsqStage lstsqRank3
      { initState with a_matrix := some [[1]], b_matrix := some [[1]] }).out = [] ∧
    (lstsqStage lstsqRank3
      { initState with a_matrix := some [[1]], b_matrix := some [[1]] }).result =
      some [[1], [2]] :=
  ⟨rfl, rfl, rfl⟩

/-- C6 amended: for every least-squares routine (rank-deficient systems
included) and every state holding both matrices, `_compute_least_squares`
stores the routine's solution in result and changes nothing else — in
particular no rank diagnostic is emitted (the rank is discarded) and the
run is not aborted. -/
theorem lstsqStage_solves
    (lstsq : List (List ℚ) → List (List ℚ) →
      List (List ℚ) × List (List ℚ) × ℕ × List ℚ)
    (st : PatchState) (a b : List (List ℚ))
    (ha : st.a_matrix = some a) (hb : st.b_matrix = some b) :
    lstsqStage lstsq st = { st with result := some (lstsq a b).1 } ∧
    (lstsqStage lstsq st).out = st.out := by
  have h : lstsqStage lstsq st = { st with result := some (lstsq a b).1 } := by
    unfold lstsqStage
    rw [ha, hb]
  exact ⟨h, by rw [h]⟩

/-- Witness for C6 at a concrete state and the rank-3-reporting routine:
the solution is stored and the printed output is unchanged. -/
theorem lstsqStage_solves_witness :
    lstsqStage lstsqRank3
        { initState with a_matrix := some [[2]], b_matrix := some [[3]] } =
      { { initState with a_matrix := some [[2]], b_matrix := some [[3]] } with
        result := some (lstsqRank3 [[2]] [[3]]).1 } ∧
    (lstsqStage lstsqRank3
        { initState with a_matrix := some [[2]], b_matrix := some [[3]] }).out =
      ({ initState with a_matrix := some [[2]], b_matrix := some [[3]] } : PatchState).out :=
  lstsqStage_solves lstsqRank3
    { initState with a_matrix := some [[2]], b_matrix := some [[3]] }
    [[2]] [[3]] rfl rfl

/-- Witness for C3 at a concrete two-line run with one point per line: the
recorded ranges are [0, 1) and [1, 2), partitioning the two-point buffer. -/
theorem mbIndexes_two_lines_witness :
    (rotateStage 1 0 [("a", [⟨1, 2, 3⟩]), ("b", [⟨4, 5, 6⟩])] initState).indexes =
      [("a", 0, 1), ("b", 1, 2)] ∧
    (0 < 2 ↔ ((0 ≤ 0 ∧ 0 < 1) ∨ (1 ≤ 0 ∧ 0 < 2))) ∧
    ¬((0 ≤ 0 ∧ 0 < 1) ∧ (1 ≤ 0 ∧ 0 < 2)) :=
  have h := mbIndexes_two_lines 1 0 "a" "b" [⟨1, 2, 3⟩] [⟨4, 5, 6⟩] initState
  ⟨h.1, h.2.2.2.1 0, h.2.2.2.2 0⟩
